import Mathlib

/-!
Verification development for the gorequest HTTP request builder.

The Go source (gorequest.go and companion files) is shallowly embedded:
the SuperAgent builder state becomes the Lean structure `AgentState`,
its mutating fluent methods become pure state transformers, and the
body-encoding / retry logic of `MakeRequest` / `EndBytes` becomes
executable Lean functions.  External collaborators (the JSON decoder
`encoding/json`, the network round trip `http.Client.Do`) are passed in
as explicit function parameters, exactly at the call sites where the Go
code invokes them.  Go byte slices are modelled as Lean `String`s and Go
`int` / `time.Duration` as `Int`.
-/

namespace Gorequest

/-- A recorded fault; Go `error` values are append-only labels from the
builder's point of view, modelled by their message string. -/
abbrev GoErr := String

/-- A decoded generic JSON value as produced by `encoding/json` with
`Decoder.UseNumber()`: Go `interface{}` holding `string`, `json.Number`
(kept as its literal text), `bool`, `nil`, `[]interface{}`,
`map[string]interface{}`, or the `[]string` values that the
query-string merge path of `SendString` writes into `s.Data`. -/
inductive DVal where
  | str (s : String)
  | num (s : String)
  | boolean (b : Bool)
  | null
  | arr (l : List DVal)
  | obj (l : List (String × DVal))
  | strArr (l : List String)

/-- The `File` struct of gorequest.go (field `Data []byte` modelled as a
string of bytes). -/
structure File where
  Filename : String
  Fieldname : String
  MimeType : String
  Data : String
deriving DecidableEq, Repr

/-- An `*http.Cookie` as far as the builder observes it: an opaque record
appended to `s.Cookies`. -/
structure Cookie where
  name : String
  value : String
deriving DecidableEq, Repr

/-- The `superAgentRetryable` struct of gorequest.go. -/
structure Retryable where
  RetryableStatus : List Int
  RetryerTime : Int
  RetryerCount : Int
  Attempt : Int
  Enable : Bool
deriving DecidableEq, Repr

/-- Multi-valued header / form / query map (`http.Header`, `url.Values`):
an association list of key to value list.  Go's map has no order; we keep
insertion order, which is observationally irrelevant for the claims
(lookups, and `Encode` sorts keys). -/
abbrev MapArray := List (String × List String)

/-- The builder state: the fields of `SuperAgent` that the accumulation,
encoding and retry logic read or write.  `Client`/`Transport` are opaque
shared handles, identified by reference in the heap model below. -/
structure AgentState where
  url : String
  method : String
  header : MapArray
  targetType : String
  forceType : String
  data : List (String × DVal)
  sliceData : List DVal
  formData : MapArray
  queryData : MapArray
  fileData : List File
  bounceToRawString : Bool
  rawString : String
  cookies : List Cookie
  errors : List GoErr
  retryable : Retryable

/-- One multipart part, as written by `multipart.Writer`: field name,
optional filename, optional part content type, and the payload. -/
structure Part where
  name : String
  filename : Option String
  contentType : Option String
  content : String
deriving DecidableEq, Repr

/-- A request body: plain bytes, or the ordered multipart part list
(the boundary serialization is external to the builder's logic). -/
inductive BodyContent where
  | bytes (s : String)
  | multipart (parts : List Part)
deriving DecidableEq, Repr

/-- The outcome of `MakeRequest`: the execution-ready request descriptor.
Query-string merging into the URL, basic auth and cookie attachment
happen after the fields modelled here and are inspected by no claim. -/
structure MadeRequest where
  method : String
  url : String
  host : Option String
  headers : MapArray
  body : Option (BodyContent × String)
deriving DecidableEq, Repr

/-- An `*http.Response` as observed by the retry loop: its status code
and mutable header map. -/
structure Resp where
  status : Int
  headers : MapArray
deriving DecidableEq, Repr

/-- The result of one `getResponseBytes` attempt inside `EndBytes`:
`(resp, body, errs)`. -/
structure Outcome where
  resp : Option Resp
  body : String
  errs : List GoErr
deriving DecidableEq, Repr

/-! ### Header-map model (`net/http.Header`, `net/textproto`) -/

/-- Characters legal in a MIME header token beyond alphanumerics
(`net/textproto.validHeaderFieldByte`); the apostrophe and backquote are
built via `Char.ofNat`. -/
def extraTokenChars : List Char :=
  "!#$%&*+-.^_|~".data ++ [Char.ofNat 39, Char.ofNat 96]

/-- Whether a character may appear in a canonical MIME header key. -/
def isTokenChar (c : Char) : Bool :=
  c.isAlphanum || extraTokenChars.contains c

/-- The per-character pass of `CanonicalMIMEHeaderKey`: uppercase the
first letter and every letter following a hyphen, lowercase the rest. -/
def canonicalChars : Bool → List Char → List Char
  | _, [] => []
  | upper, c :: rest =>
    (if upper then c.toUpper else c.toLower) :: canonicalChars (c = '-') rest

/-- `textproto.CanonicalMIMEHeaderKey`: returns the key unchanged when it
contains a non-token character, else canonicalizes its case. -/
def canonicalMIMEHeaderKey (k : String) : String :=
  if k.data.all isTokenChar then String.mk (canonicalChars true k.data) else k

/-- `http.Header.Get`: canonicalize the key, return the first stored
value or the empty string. -/
def headerGet (m : MapArray) (k : String) : String :=
  let ck := canonicalMIMEHeaderKey k
  match m.lookup ck with
  | some (v :: _) => v
  | _ => ""

/-- `http.Header.Set`: canonicalize the key and replace its value list
with the singleton `[v]`. -/
def headerSet (m : MapArray) (k v : String) : MapArray :=
  let ck := canonicalMIMEHeaderKey k
  match m with
  | [] => [(ck, [v])]
  | (k0, vs) :: rest =>
    if k0 = ck then (k0, [v]) :: rest
    else (k0, vs) :: headerSet rest k v

/-- `http.Header.Add`: canonicalize the key and append `v` to its value
list. -/
def headerAdd (m : MapArray) (k v : String) : MapArray :=
  let ck := canonicalMIMEHeaderKey k
  match m with
  | [] => [(ck, [v])]
  | (k0, vs) :: rest =>
    if k0 = ck then (k0, vs ++ [v]) :: rest
    else (k0, vs) :: headerAdd rest k v

/-- ASCII-lowercase a string (stands in for `strings.EqualFold` on the
header keys the builder uses). -/
def lowerStr (s : String) : String := String.mk (s.data.map Char.toLower)

/-- The `Host` special case of `MakeRequest`: the first value of a header
entry whose key case-folds to "Host" becomes the request's routing host. -/
def hostOf (m : MapArray) : Option String :=
  match m.find? (fun e => lowerStr e.1 = "host") with
  | some (_, v :: _) => some v
  | _ => none

/-! ### URL query encoding model (`net/url`)

`url.Values.Encode`, `url.QueryEscape`, `url.QueryUnescape` and
`url.ParseQuery` are Go-standard-library collaborators of gorequest;
they are modelled here executable.  Strings stand for byte strings:
percent-decoding maps each decoded byte to the code point of the same
value, which is faithful for the ASCII data the development evaluates. -/

/-- Digits for uppercase percent-encoding. -/
def hexDigitUpper (n : Nat) : Char := "0123456789ABCDEF".data.getD n '0'

/-- UTF-8 bytes of a character, as Go sees a string's bytes. -/
def utf8Bytes (c : Char) : List Nat :=
  let n := c.toNat
  if n < 0x80 then [n]
  else if n < 0x800 then [0xC0 + n / 64, 0x80 + n % 64]
  else if n < 0x10000 then [0xE0 + n / 4096, 0x80 + n / 64 % 64, 0x80 + n % 64]
  else [0xF0 + n / 262144, 0x80 + n / 4096 % 64, 0x80 + n / 64 % 64, 0x80 + n % 64]

/-- Whether `url.QueryEscape` leaves the character unescaped. -/
def queryUnescapedChar (c : Char) : Bool :=
  c.isAlphanum || c = '-' || c = '_' || c = '.' || c = '~'

/-- `url.QueryEscape`: space becomes `+`, unreserved characters pass,
every other byte becomes `%XX`. -/
def queryEscape (s : String) : String :=
  String.mk (s.data.flatMap (fun c =>
    if queryUnescapedChar c then [c]
    else if c = ' ' then ['+']
    else (utf8Bytes c).flatMap (fun b =>
      ['%', hexDigitUpper (b / 16), hexDigitUpper (b % 16)])))

/-- Value of a hexadecimal digit, or `none`. -/
def hexVal (c : Char) : Option Nat :=
  if '0' ≤ c ∧ c ≤ '9' then some (c.toNat - 48)
  else if 'a' ≤ c ∧ c ≤ 'f' then some (c.toNat - 87)
  else if 'A' ≤ c ∧ c ≤ 'F' then some (c.toNat - 55)
  else none

/-- Character-list worker for `url.QueryUnescape`: `+` becomes space,
`%XX` decodes (failing on bad or truncated hex, as Go errors). -/
def queryUnescapeChars : List Char → Option (List Char)
  | [] => some []
  | '%' :: a :: b :: rest => do
    let ha ← hexVal a
    let hb ← hexVal b
    let r ← queryUnescapeChars rest
    pure (Char.ofNat (16 * ha + hb) :: r)
  | '%' :: _ => none
  | '+' :: rest => do pure (' ' :: (← queryUnescapeChars rest))
  | c :: rest => do pure (c :: (← queryUnescapeChars rest))

/-- `url.QueryUnescape`. -/
def queryUnescape (s : String) : Option String :=
  (queryUnescapeChars s.data).map String.mk

/-- `url.Values.Add`: append the value under the key (key insertion
order kept, value order per key preserved, as Go's map-of-slices). -/
def uvAdd (uv : MapArray) (k v : String) : MapArray :=
  match uv with
  | [] => [(k, [v])]
  | (k0, vs) :: rest =>
    if k0 = k then (k0, vs ++ [v]) :: rest
    else (k0, vs) :: uvAdd rest k v

/-- Lexicographic comparison of character lists by code point; on UTF-8
encoded text this coincides with Go's byte-wise string ordering. -/
def charListLt : List Char → List Char → Bool
  | [], [] => false
  | [], _ :: _ => true
  | _ :: _, [] => false
  | a :: as, b :: bs =>
    if a.toNat < b.toNat then true
    else if b.toNat < a.toNat then false
    else charListLt as bs

/-- Go string `<` on the model. -/
def strLt (a b : String) : Bool := charListLt a.data b.data

/-- Insert an entry into a key-sorted map array. -/
def uvInsertSorted (e : String × List String) : MapArray → MapArray
  | [] => [e]
  | f :: rest => if strLt e.1 f.1 then e :: f :: rest else f :: uvInsertSorted e rest

/-- Sort entries by key, as `url.Values.Encode` sorts its keys. -/
def uvSortKeys (uv : MapArray) : MapArray := uv.foldr uvInsertSorted []

/-- Join strings with a separator (`strings.Builder` loop of
`url.Values.Encode`; a structural stand-in for interleaving so that
closed instances evaluate inside the kernel). -/
def joinSep (sep : String) : List String → String
  | [] => ""
  | [x] => x
  | x :: y :: rest => x ++ sep ++ joinSep sep (y :: rest)

/-- `url.Values.Encode`: keys sorted, each value percent-escaped into
`key=value` pairs joined by `&`. -/
def uvEncode (uv : MapArray) : String :=
  joinSep "&" ((uvSortKeys uv).flatMap (fun e =>
    e.2.map (fun v => queryEscape e.1 ++ "=" ++ queryEscape v)))

/-- Split a character list on a separator character (the `&` splitting
of `url.ParseQuery`). -/
def splitOnChar (sep : Char) : List Char → List (List Char)
  | [] => [[]]
  | c :: rest =>
    match splitOnChar sep rest with
    | [] => if c = sep then [[], []] else [[c]]
    | seg :: segs => if c = sep then [] :: seg :: segs else (c :: seg) :: segs

/-- Cut a character list at the first occurrence of a separator
(`strings.Cut`; an absent separator leaves the value side empty). -/
def cutAtChar (sep : Char) : List Char → List Char × List Char
  | [] => ([], [])
  | c :: rest =>
    if c = sep then ([], rest)
    else
      let r := cutAtChar sep rest
      (c :: r.1, r.2)

/-- Segment loop of `url.ParseQuery`: reject segments containing `;`,
skip empty segments, cut each at the first `=`, unescape key and value.
Go returns the partial map together with the first error; callers in
gorequest only use the map when the error is nil, so the model returns
`none` exactly when some segment errors. -/
def parseQuerySegs : List (List Char) → MapArray → Option MapArray
  | [], acc => some acc
  | seg :: rest, acc =>
    if seg.contains ';' then none
    else if seg.isEmpty then parseQuerySegs rest acc
    else
      let kv := cutAtChar '=' seg
      match queryUnescapeChars kv.1, queryUnescapeChars kv.2 with
      | some k2, some v2 => parseQuerySegs rest (uvAdd acc (String.mk k2) (String.mk v2))
      | _, _ => none

/-- `url.ParseQuery` (error-free runs only, see `parseQuerySegs`). -/
def parseQueryModel (s : String) : Option MapArray :=
  if s = "" then some [] else parseQuerySegs (splitOnChar '&' s.data) []

/-! ### Type registry and target-type resolution -/

/-- Modelled from the spec: the short-name constant `TypeJSON` (the const
declarations are referenced by gorequest.go but their defining file is
not under src/; names and values follow the spec's type registry and the
`Type` documentation). -/
def TypeJSON : String := "json"

/-- Modelled from the spec: the short-name constant `TypeForm`. -/
def TypeForm : String := "form"

/-- Modelled from the spec: the short-name constant `TypeFormData`. -/
def TypeFormData : String := "form-data"

/-- Modelled from the spec: the short-name constant `TypeUrlencoded`. -/
def TypeUrlencoded : String := "urlencoded"

/-- Modelled from the spec: the short-name constant `TypeHTML`. -/
def TypeHTML : String := "html"

/-- Modelled from the spec: the short-name constant `TypeXML`. -/
def TypeXML : String := "xml"

/-- Modelled from the spec: the short-name constant `TypeText`. -/
def TypeText : String := "text"

/-- Modelled from the spec: the short-name constant `TypeMultipart`. -/
def TypeMultipart : String := "multipart"

/-- Modelled from the spec: the `Types` registry mapping short names to
canonical content-type strings (§6 of the spec; the defining const file
is not under src/).  Go iterates this map in arbitrary order; the three
aliases of the urlencoded content type select target types that gorequest
treats identically, so a fixed iteration order is observationally
faithful. -/
def typesList : List (String × String) :=
  [(TypeJSON, "application/json"),
   (TypeXML, "application/xml"),
   (TypeForm, "application/x-www-form-urlencoded"),
   (TypeFormData, "application/x-www-form-urlencoded"),
   (TypeUrlencoded, "application/x-www-form-urlencoded"),
   (TypeHTML, "text/html"),
   (TypeText, "text/plain"),
   (TypeMultipart, "multipart/form-data")]

/-- The opening switch of `MakeRequest`: a forced type among
json/form/xml/text/multipart wins; otherwise an already-set
`Content-Type` header matching a registry value selects the
corresponding target type; otherwise the previous target type stays. -/
def resolveTargetType (s : AgentState) : AgentState :=
  if s.forceType = TypeJSON ∨ s.forceType = TypeForm ∨ s.forceType = TypeXML ∨
     s.forceType = TypeText ∨ s.forceType = TypeMultipart then
    {s with targetType := s.forceType}
  else
    let ct := headerGet s.header "Content-Type"
    {s with targetType := typesList.foldl (fun t e => if ct = e.2 then e.1 else t) s.targetType}

/-- The mixed-store bounce of `MakeRequest`: when both `Data` and
`SliceData` are non-empty the builder falls back to the raw string. -/
def forceBounceOnMix (s : AgentState) : AgentState :=
  if s.data.length ≠ 0 ∧ s.sliceData.length ≠ 0 then {s with bounceToRawString := true} else s

/-- The state `MakeRequest` encodes from: target type resolved, then the
mixed-store raw-string fallback applied. -/
def makeRequestResolved (s : AgentState) : AgentState :=
  forceBounceOnMix (resolveTargetType s)

/-! ### Form flattening (`changeMapToURLValues`) -/

/-- One entry of `changeMapToURLValues`.  The `int`/`float` cases of the
Go switch cannot arise here: every ingestion path decodes with
`UseNumber`, so numeric `Data` values are `json.Number` (`DVal.num`).
For a `[]interface{}` value Go runs an unchecked type assertion on each
element after inspecting the first; an element of a different dynamic
type would panic, which the model renders by skipping that element. -/
def changeMapEntry (uv : MapArray) (k : String) (v : DVal) : MapArray :=
  match v with
  | .str s => uvAdd uv k s
  | .boolean b => uvAdd uv k (if b then "true" else "false")
  | .num s => uvAdd uv k s
  | .strArr l => l.foldl (fun u x => uvAdd u k x) uv
  | .arr [] => uv
  | .arr (x :: xs) =>
    match x with
    | .str _ =>
      (x :: xs).foldl (fun u e => match e with | .str s => uvAdd u k s | _ => u) uv
    | .boolean _ =>
      (x :: xs).foldl (fun u e => match e with | .boolean b => uvAdd u k (if b then "true" else "false") | _ => u) uv
    | .num _ =>
      (x :: xs).foldl (fun u e => match e with | .num s => uvAdd u k s | _ => u) uv
    | _ => uv
  | _ => uv

/-- `changeMapToURLValues`: flatten the map store into `url.Values`. -/
def changeMapToURLValues (data : List (String × DVal)) : MapArray :=
  data.foldl (fun uv e => changeMapEntry uv e.1 e.2) []

/-! ### Multipart body (`MakeRequest`, multipart branch) -/

/-- The overridable field name for the raw-string part. -/
def dataFieldnameOf (h : MapArray) : String :=
  let f := headerGet h "data_fieldname"
  if f = "" then "data" else f

/-- The overridable field name for the JSON array part. -/
def jsonFieldnameOf (h : MapArray) : String :=
  let f := headerGet h "json_fieldname"
  if f = "" then "data" else f

/-- The backslash/quote escaping `MakeRequest` applies to the JSON part's
field name (copied in the source from `CreateFormField`): first every
backslash is doubled, then every quote gains a backslash — since the
second pass never rewrites the backslashes the first inserted, the
composition is this per-character expansion. -/
def escapeFieldName (f : String) : String :=
  String.mk (f.data.flatMap (fun c =>
    if c = '\\' then ['\\', '\\']
    else if c = '"' then ['\\', '"']
    else [c]))

/-- The multipart part list written by the multipart branch, in source
order: raw-string part when bouncing, one field per flattened `Data`
entry, the JSON-typed `SliceData` part, then one part per file.  The
second component records whether any branch set `contentReader`, which
decides whether a body and content type are produced.  The file parts
follow `CreateFormFile` (a gorequest helper not under src/), whose
shape — own field name, filename and mime type per attachment — is
modelled from the spec. -/
def multipartParts (marshalArr : List DVal → String) (s : AgentState) : List Part × Bool :=
  let (p1, r1) :=
    if s.bounceToRawString then
      ([Part.mk (dataFieldnameOf s.header) none none s.rawString], true)
    else ([], false)
  let (p2, r2) :=
    if s.data.length ≠ 0 then
      ((changeMapToURLValues s.data).flatMap (fun e =>
        e.2.map (fun v => Part.mk e.1 none none v)), true)
    else ([], false)
  let (p3, r3) :=
    if s.sliceData.length ≠ 0 then
      ([Part.mk (escapeFieldName (jsonFieldnameOf s.header)) none
        (some "application/json") (marshalArr s.sliceData)], true)
    else ([], false)
  let (p4, r4) :=
    if s.fileData.length ≠ 0 then
      (s.fileData.map (fun f => Part.mk f.Fieldname (some f.Filename) (some f.MimeType) f.Data), true)
    else ([], false)
  (p1 ++ p2 ++ p3 ++ p4, r1 || r2 || r3 || r4)

/-- The boundary-bearing content type computed by
`multipart.Writer.FormDataContentType` after the writer is closed; the
boundary is a random token, modelled as a fixed placeholder (no claim
inspects it). -/
def multipartContentType : String := "multipart/form-data; boundary=boundary"

/-! ### `MakeRequest` -/

/-- The body-encoding switch of `MakeRequest` on the resolved state.
`marshalObj`/`marshalArr` stand for `json.Marshal` on
`map[string]interface{}` / `[]interface{}`.  Returns the optional
`(content, contentType)` pair, or the "TargetType could not be
determined" error of the default case (which an unforced `html` target
also reaches, as in the source). -/
def bodyFor (marshalObj : List (String × DVal) → String)
    (marshalArr : List DVal → String) (s : AgentState) :
    Except GoErr (Option (BodyContent × String)) :=
  if s.targetType = TypeJSON then
    let contentJson : Option String :=
      if s.bounceToRawString then some s.rawString
      else if s.data.length ≠ 0 then some (marshalObj s.data)
      else if s.sliceData.length ≠ 0 then some (marshalArr s.sliceData)
      else none
    .ok (contentJson.map (fun c => (.bytes c, "application/json")))
  else if s.targetType = TypeForm ∨ s.targetType = TypeFormData ∨ s.targetType = TypeUrlencoded then
    let contentForm :=
      if s.bounceToRawString ∨ s.sliceData.length ≠ 0 then s.rawString
      else uvEncode (changeMapToURLValues s.data)
    .ok (if contentForm.length ≠ 0 then some (.bytes contentForm, "application/x-www-form-urlencoded") else none)
  else if s.targetType = TypeText then
    .ok (if s.rawString.length ≠ 0 then some (.bytes s.rawString, "text/plain") else none)
  else if s.targetType = TypeXML then
    .ok (if s.rawString.length ≠ 0 then some (.bytes s.rawString, "application/xml") else none)
  else if s.targetType = TypeMultipart then
    let pr := multipartParts marshalArr s
    .ok (if pr.2 then some (.multipart pr.1, multipartContentType) else none)
  else if s.targetType = "" then
    .ok none
  else
    .error ("TargetType could not be determined")

/-- The content-type step of `MakeRequest`: set the computed content
type only when a body was produced, its type string is non-empty, and
the caller has not already set an explicit `Content-Type` header. -/
def contentTypeMerge (hdrs : MapArray) (bodyOpt : Option (BodyContent × String)) : MapArray :=
  match bodyOpt with
  | some (_, ct) =>
    if ct.length ≠ 0 ∧ headerGet hdrs "Content-Type" = "" then
      headerSet hdrs "Content-Type" ct
    else hdrs
  | none => hdrs

/-- `MakeRequest`: resolve the target type, apply the mixed-store
fallback, reject an empty method, encode the body, copy the accumulated
headers (the `Host` header doubling as the routing host), and set the
computed content type only when non-empty and not already overridden.
Query merging, basic auth and cookies are applied afterwards on fields
no claim inspects. -/
def makeRequest (marshalObj : List (String × DVal) → String)
    (marshalArr : List DVal → String) (s0 : AgentState) :
    Except GoErr MadeRequest :=
  let s := makeRequestResolved s0
  if s.method = "" then .error "no method specified"
  else
    match bodyFor marshalObj marshalArr s with
    | .error e => .error e
    | .ok bodyOpt =>
      .ok { method := s.method, url := s.url, host := hostOf s.header,
            headers := contentTypeMerge s.header bodyOpt, body := bodyOpt }

/-! ### String ingestion (`SendString`, `SendSlice`) -/

/-- What `json.NewDecoder(...).Decode` (with `UseNumber`) finds in a
string, at the granularity `SendString` dispatches on: a JSON object, a
JSON array, any other successfully decoded shape (scalar or null), or a
decode failure.  The decoder itself is a standard-library collaborator
and is passed into `sendString` as a parameter. -/
inductive JsonDecodeResult where
  | obj (kvs : List (String × DVal))
  | arr (elems : List DVal)
  | other
  | fail

/-- Go map assignment `s.Data[k] = v` on the association-list model:
replace the binding in place or append a new one. -/
def dataSet (d : List (String × DVal)) (k : String) (v : DVal) : List (String × DVal) :=
  match d with
  | [] => [(k, v)]
  | (k0, v0) :: rest => if k0 = k then (k0, v) :: rest else (k0, v0) :: dataSet rest k v

/-- `SendSlice`: append the elements to `SliceData`. -/
def sendSlice (content : List DVal) (s : AgentState) : AgentState :=
  {s with sliceData := s.sliceData ++ content}

/-- The repeated-key accumulation of `SendString`'s query-string branch:
a fresh `[]string` starts with the new value and then appends the old
value(s); a previous value of any other type contributes nothing (the Go
switch has no default case). -/
def formMergeValue (old : DVal) (formValue : String) : DVal :=
  match old with
  | .strArr l => .strArr (formValue :: l)
  | .str s0 => .strArr [formValue, s0]
  | _ => .strArr [formValue]

/-- One `s.Data[k]` update of the query-string branch: merge with an
existing value or store the plain string. -/
def dataMergeForm (d : List (String × DVal)) (k : String) (formValue : String) :
    List (String × DVal) :=
  match d.lookup k with
  | some old => dataSet d k (formMergeValue old formValue)
  | none => dataSet d k (.str formValue)

/-- `SendString`.  `jd` is the generic JSON decode, `pq` is
`url.ParseQuery` (`parseQueryModel` is a concrete instance).  When the
raw-string fallback flag is already set, everything but the raw-buffer
append is skipped; otherwise a decoded object merges into `Data` (and an
empty resulting `Data` sets the fallback flag), a decoded array extends
`SliceData`, any other decoded shape sets the flag, a JSON failure falls
back to query-string parsing into `Data` plus the form target type, and
a double failure sets the flag.  The original string is always appended
to `RawString`. -/
def sendString (jd : String → JsonDecodeResult) (pq : String → Option MapArray)
    (content : String) (s : AgentState) : AgentState :=
  let s :=
    if s.bounceToRawString then s
    else
      match jd content with
      | .obj kvs =>
        let s := {s with data := kvs.foldl (fun d e => dataSet d e.1 e.2) s.data}
        if s.data.length = 0 then {s with bounceToRawString := true} else s
      | .arr elems => sendSlice elems s
      | .other => {s with bounceToRawString := true}
      | .fail =>
        match pq content with
        | some formData =>
          let s := {s with data :=
            (formData.foldl
              (fun (d : List (String × DVal)) (e : String × List String) =>
                e.2.foldl (fun d2 v => dataMergeForm d2 e.1 v) d) s.data)}
          {s with targetType := TypeForm}
        | none => {s with bounceToRawString := true}
  {s with rawString := s.rawString ++ content}

/-! ### File registration (`SendFile`) -/

/-- A variadic `interface{}` argument of `SendFile`, restricted to the
dynamic types its argument handling distinguishes: anything formatted
through `fmt.Sprintf("%v", ·)`, with `bool` singled out for the
`skipFileNumbering` position. -/
inductive GoArg where
  | str (s : String)
  | boolean (b : Bool)

/-- `fmt.Sprintf("%v", arg)` on a `GoArg`. -/
def sprintfV : GoArg → String
  | .str s => s
  | .boolean b => if b then "true" else "false"

/-- The filename resolved from `args[0]` (empty when absent or empty). -/
def argFilenameOf (args : List GoArg) : String :=
  match args[0]? with
  | some a => if (sprintfV a).length > 0 then (sprintfV a).trim else ""
  | none => ""

/-- The field name resolved from `args[1]` (default `"file"`). -/
def argFieldnameOf (args : List GoArg) : String :=
  match args[1]? with
  | some a => if (sprintfV a).length > 0 then (sprintfV a).trim else "file"
  | none => "file"

/-- `skipFileNumbering` resolved from `args[2]` (used only when the
argument's dynamic type is `bool`). -/
def argSkipOf (args : List GoArg) : Bool :=
  match (args[2]? : Option GoArg) with
  | some (.boolean b) => b
  | _ => false

/-- The mime type resolved from `args[3]` (default
`application/octet-stream`). -/
def argTypeOf (args : List GoArg) : String :=
  match args[3]? with
  | some a => if (sprintfV a).length > 0 then (sprintfV a).trim else "application/octet-stream"
  | none => "application/octet-stream"

/-- Whether `SendFile` rejects the mime-type argument: a fourth argument
present whose trimmed value is empty. -/
def argTypeErr (args : List GoArg) : Bool :=
  args.length ≥ 4 && argTypeOf args = ""

/-- `SendFile` for a `[]byte` source (the `reflect.Slice` branch; the
path and `os.File` branches additionally read the filesystem, an
external effect no claim touches).  Resolves the optional arguments,
rejects an empty mime override, numbers the field name when it is the
sentinel `"file"` without `skipFileNumbering` (or empty), defaults the
filename to `"filename"`, and appends the attachment. -/
def sendFile (fileBytes : String) (args : List GoArg) (s : AgentState) : AgentState :=
  let filename := argFilenameOf args
  let fieldname := argFieldnameOf args
  let skip := argSkipOf args
  let fileType := argTypeOf args
  if argTypeErr args then
    {s with errors := s.errors ++
      ["the fifth SendFile method argument for MIME type cannot be an empty string"]}
  else
    let fieldname :=
      if (fieldname = "file" ∧ ¬skip) ∨ fieldname = "" then
        "file" ++ toString (s.fileData.length + 1)
      else fieldname
    let filename := if filename = "" then "filename" else filename
    {s with fileData := s.fileData ++ [File.mk filename fieldname fileType fileBytes]}

/-! ### Retry loop (`Retry`, `shouldRetry`, `EndBytes`) -/

/-- Modelled from the spec: `statusesContains`, the membership helper
called by `shouldRetry` but defined in a file not under src/ — the spec
words it as `response.status ∈ policy.retryableStatuses`. -/
def statusesContains (statuses : List Int) (status : Int) : Bool :=
  statuses.contains status

/-- `resp.StatusCode` as read by `shouldRetry`.  Go would dereference a
nil response; inside `EndBytes` the response is nil only when the
attempt produced errors, in which case the retry disjunction is already
true through `hasError`, so the placeholder value for `none` never
decides a Go-reachable run. -/
def respStatusCode : Option Resp → Int
  | some r => r.status
  | none => 0

/-- The condition of `shouldRetry`: policy enabled, attempt counter
strictly below the configured count, and the attempt errored or returned
a retryable status. -/
def retryCondition (r : Retryable) (resp : Option Resp) (hasError : Bool) : Bool :=
  r.Enable && decide (r.Attempt < r.RetryerCount) &&
    (hasError || statusesContains r.RetryableStatus (respStatusCode resp))

/-- `shouldRetry`: when its condition holds it sleeps for `RetryerTime`
and increments `Attempt`; the returned triple is (retry?, updated
policy, number of sleeps performed). -/
def shouldRetry (r : Retryable) (resp : Option Resp) (hasError : Bool) :
    Bool × Retryable × Nat :=
  if retryCondition r resp hasError then (true, {r with Attempt := r.Attempt + 1}, 1)
  else (false, r, 0)

/-- `Retry(retryerCount, retryerTime, statusCode...)`: the stored policy
struct.  The setter additionally validates each code against
`http.StatusText` (an external registry), appending an error for unknown
codes before storing the same struct; the development only uses valid
codes. -/
def retryPolicy (retryerCount retryerTime : Int) (statusCode : List Int) : Retryable :=
  { RetryableStatus := statusCode, RetryerTime := retryerTime,
    RetryerCount := retryerCount, Attempt := 0, Enable := true }

/-- The attempt that produced `o` is repeated by `EndBytes`. -/
def outcomeRetryable (r : Retryable) (o : Outcome) : Bool :=
  !o.errs.isEmpty || statusesContains r.RetryableStatus (respStatusCode o.resp)

/-- The `for` loop of `EndBytes`: run the attempt for the current
`Attempt` value; while `shouldRetry` fires, clear the builder errors and
go again.  `exec i` abstracts `s.getResponseBytes()` on the i-th attempt
(the error clearing between attempts keeps the short-circuit of
`getResponseBytes` from firing, so each iteration reaches the network).
Returns the final policy, the number of sleeps, and the last outcome. -/
def endBytesLoop (exec : Int → Outcome) (r : Retryable) : Retryable × Nat × Outcome :=
  let o := exec r.Attempt
  if h : retryCondition r o.resp (!o.errs.isEmpty) then
    let res := endBytesLoop exec {r with Attempt := r.Attempt + 1}
    (res.1, res.2.1 + 1, res.2.2)
  else (r, 0, o)
termination_by (r.RetryerCount - r.Attempt).toNat
decreasing_by
  simp only [retryCondition, Bool.and_eq_true, decide_eq_true_eq] at h
  omega

/-- The `Retry-Count` stamp `EndBytes` applies to a non-nil final
response. -/
def stampRetryCount (o : Outcome) (attempt : Int) : Outcome :=
  {o with resp := o.resp.map (fun resp =>
    {resp with headers := headerSet resp.headers "Retry-Count" (toString attempt)})}

/-- `EndBytes`: the retry loop followed by the `Retry-Count` stamp; the
last attempt's response, body and errors are returned unchanged apart
from the stamp. -/
def endBytes (exec : Int → Outcome) (r : Retryable) : Retryable × Nat × Outcome :=
  let res := endBytesLoop exec r
  (res.1, res.2.1, stampRetryCount res.2.2 res.1.Attempt)

/-! ### One attempt (`getResponseBytes`) -/

/-- `getResponseBytes`: short-circuit on accumulated errors before
building anything; then build the request, hand it to the execution
capability `doReq` (abstracting `s.Client.Do` plus the body read), and
return the rehydrated response.  Debug/curl logging and the statistics
collaborator are write-only side channels and are not modelled. -/
def getResponseBytes (doReq : MadeRequest → Except GoErr (Resp × String))
    (marshalObj : List (String × DVal) → String)
    (marshalArr : List DVal → String) (s : AgentState) :
    Option Resp × Option String × List GoErr :=
  if s.errors.length ≠ 0 then (none, none, s.errors)
  else
    match makeRequest marshalObj marshalArr s with
    | .error e => (none, none, s.errors ++ [e])
    | .ok req =>
      match doReq req with
      | .error e => (none, none, s.errors ++ [e])
      | .ok (resp, body) => (some resp, some body, [])

/-! ### Heap model for `Clone`

`Clone` is about aliasing: which mutable containers of the Go struct the
copy shares with the original.  The builder's reference-typed stores
(maps and slices) live in an explicit heap of cells; a `HeapAgent`
holds addresses into that heap next to the value-typed fields that Go
copies with the struct (`RawString`, `BounceToRawString`, the scalar
retry fields, ...).  `Client` and `Transport` are opaque pointers,
represented by their reference identity alone.  An API mutation is any
pure transformer of the builder state, applied by reading the
receiver's cells, transforming, and writing back through the
receiver's addresses — exactly the footprint of the Go methods, which
write only through the receiving struct's own references. -/

/-- A heap cell: one of the reference-typed stores of `SuperAgent`.
`mapArr` backs `Header`, `FormData` and `QueryData` alike. -/
inductive Cell where
  | mapArr (m : MapArray)
  | dataC (d : List (String × DVal))
  | sliceC (l : List DVal)
  | filesC (l : List File)
  | cookiesC (l : List Cookie)
  | errsC (l : List GoErr)
  | intsC (l : List Int)

/-- The heap: cells addressed by position. -/
abbrev Heap := List Cell

/-- A builder whose reference stores are heap addresses.  The scalar
fields of `superAgentRetryable` stay inline (Go copies them with the
struct); its `RetryableStatus` slice gets its own cell, matching
`copyRetryable`'s fresh slice. -/
structure HeapAgent where
  headerA : Nat
  dataA : Nat
  sliceA : Nat
  formA : Nat
  queryA : Nat
  fileA : Nat
  cookieA : Nat
  errA : Nat
  retryStatusA : Nat
  url : String
  method : String
  targetType : String
  forceType : String
  bounceToRawString : Bool
  rawString : String
  retryerTime : Int
  retryerCount : Int
  attempt : Int
  retryEnable : Bool
  clientRef : Nat
  transportRef : Nat
  doNotClear : Bool
  isClone : Bool

/-- Read a `mapArr` cell (defaulting on a dangling or ill-typed
address; well-formed states never default). -/
def readMapArr (h : Heap) (a : Nat) : MapArray :=
  match h[a]? with
  | some (.mapArr m) => m
  | _ => []

/-- Read a `dataC` cell. -/
def readData (h : Heap) (a : Nat) : List (String × DVal) :=
  match h[a]? with
  | some (.dataC d) => d
  | _ => []

/-- Read a `sliceC` cell. -/
def readSlice (h : Heap) (a : Nat) : List DVal :=
  match h[a]? with
  | some (.sliceC l) => l
  | _ => []

/-- Read a `filesC` cell. -/
def readFiles (h : Heap) (a : Nat) : List File :=
  match h[a]? with
  | some (.filesC l) => l
  | _ => []

/-- Read a `cookiesC` cell. -/
def readCookies (h : Heap) (a : Nat) : List Cookie :=
  match h[a]? with
  | some (.cookiesC l) => l
  | _ => []

/-- Read an `errsC` cell. -/
def readErrs (h : Heap) (a : Nat) : List GoErr :=
  match h[a]? with
  | some (.errsC l) => l
  | _ => []

/-- Read an `intsC` cell. -/
def readInts (h : Heap) (a : Nat) : List Int :=
  match h[a]? with
  | some (.intsC l) => l
  | _ => []

/-- Everything an owner observes through a builder: its value fields
together with the contents of all its heap-resident stores. -/
def readAgent (a : HeapAgent) (h : Heap) : AgentState :=
  { url := a.url, method := a.method,
    header := readMapArr h a.headerA,
    targetType := a.targetType, forceType := a.forceType,
    data := readData h a.dataA,
    sliceData := readSlice h a.sliceA,
    formData := readMapArr h a.formA,
    queryData := readMapArr h a.queryA,
    fileData := readFiles h a.fileA,
    bounceToRawString := a.bounceToRawString,
    rawString := a.rawString,
    cookies := readCookies h a.cookieA,
    errors := readErrs h a.errA,
    retryable := { RetryableStatus := readInts h a.retryStatusA,
                   RetryerTime := a.retryerTime, RetryerCount := a.retryerCount,
                   Attempt := a.attempt, Enable := a.retryEnable } }

/-- Write a builder state back through a builder's own addresses. -/
def writeAgent (a : HeapAgent) (h : Heap) (p : AgentState) : Heap :=
  ((((((((h.set a.headerA (.mapArr p.header)).set a.dataA (.dataC p.data)).set
    a.sliceA (.sliceC p.sliceData)).set a.formA (.mapArr p.formData)).set
    a.queryA (.mapArr p.queryData)).set a.fileA (.filesC p.fileData)).set
    a.cookieA (.cookiesC p.cookies)).set a.errA (.errsC p.errors)).set
    a.retryStatusA (.intsC p.retryable.RetryableStatus)

/-- The value-field part of a state transformer's result, installed in
the receiving builder record. -/
def agentVals (a : HeapAgent) (p : AgentState) : HeapAgent :=
  {a with
    url := p.url
    method := p.method
    targetType := p.targetType
    forceType := p.forceType
    bounceToRawString := p.bounceToRawString
    rawString := p.rawString
    retryerTime := p.retryable.RetryerTime
    retryerCount := p.retryable.RetryerCount
    attempt := p.retryable.Attempt
    retryEnable := p.retryable.Enable}

/-- Apply an API mutation — any pure transformer `f` of the builder
state, e.g. `sendString jd pq c` or `sendFile b args` — through a
builder: read its stores, transform, write back through its own
addresses.  This is the footprint of every fluent method of
`SuperAgent`: they mutate only containers reached through the receiver's
own fields. -/
def applyOp (f : AgentState → AgentState) (a : HeapAgent) (h : Heap) :
    HeapAgent × Heap :=
  let p := f (readAgent a h)
  (agentVals a p, writeAgent a h p)

/-- `Clone`: allocate nine fresh cells holding copies of the original's
stores (`cloneMapArray`, `shallowCopyData`, `shallowCopyDataSlice`,
`shallowCopyFileArray`, `shallowCopyCookies`, `shallowCopyErrors`,
`copyRetryable` — the helpers not under src/ are modelled from the
spec's "deep-copies all mutable stores"), copy the value fields, keep
the same `Client`/`Transport` references, and force
`DoNotClearSuperAgent` and `isClone`. -/
def clone (a : HeapAgent) (h : Heap) : HeapAgent × Heap :=
  let n := h.length
  let h2 := h ++ [Cell.mapArr (readMapArr h a.headerA),
                  Cell.dataC (readData h a.dataA),
                  Cell.sliceC (readSlice h a.sliceA),
                  Cell.mapArr (readMapArr h a.formA),
                  Cell.mapArr (readMapArr h a.queryA),
                  Cell.filesC (readFiles h a.fileA),
                  Cell.cookiesC (readCookies h a.cookieA),
                  Cell.errsC (readErrs h a.errA),
                  Cell.intsC (readInts h a.retryStatusA)]
  ({a with
      headerA := n
      dataA := n + 1
      sliceA := n + 2
      formA := n + 3
      queryA := n + 4
      fileA := n + 5
      cookieA := n + 6
      errA := n + 7
      retryStatusA := n + 8
      doNotClear := true
      isClone := true}, h2)

/-- A builder owns live addresses: every store address points into the
heap. -/
def agentWF (a : HeapAgent) (h : Heap) : Prop :=
  a.headerA < h.length ∧ a.dataA < h.length ∧ a.sliceA < h.length ∧
  a.formA < h.length ∧ a.queryA < h.length ∧ a.fileA < h.length ∧
  a.cookieA < h.length ∧ a.errA < h.length ∧ a.retryStatusA < h.length

instance (a : HeapAgent) (h : Heap) : Decidable (agentWF a h) := by
  unfold agentWF
  infer_instance

/-! ### Remaining builder operations and concrete instances -/

/-- `ClearSuperAgent` modulo the receiver's `DoNotClearSuperAgent` flag
(a value field passed explicitly): reset every accumulation store and the
target type to the `New()` defaults.  As in the source, the retry policy
is not reset. -/
def clearSuperAgent (doNotClear : Bool) (s : AgentState) : AgentState :=
  if doNotClear then s
  else
    {s with
      url := ""
      method := ""
      header := []
      data := []
      sliceData := []
      formData := []
      queryData := []
      fileData := []
      bounceToRawString := false
      rawString := ""
      forceType := ""
      targetType := TypeJSON
      cookies := []
      errors := []}

/-- The builder produced by `New()`: JSON default target, all stores
empty, zero-valued retry policy (disabled). -/
def newAgent : AgentState :=
  { url := "", method := "", header := [], targetType := TypeJSON, forceType := "",
    data := [], sliceData := [], formData := [], queryData := [], fileData := [],
    bounceToRawString := false, rawString := "", cookies := [], errors := [],
    retryable := { RetryableStatus := [], RetryerTime := 0, RetryerCount := 0,
                   Attempt := 0, Enable := false } }

/-- A finite-table JSON decoder: decode the listed strings as given,
fail on everything else.  Witnesses instantiate `sendString`'s decoder
parameter with tables that agree with `encoding/json` on their entries. -/
def jdTable (t : List (String × JsonDecodeResult)) (c : String) : JsonDecodeResult :=
  match t.lookup c with
  | some r => r
  | none => .fail

/-- A stand-in for `json.Marshal` on the map store, for witnesses whose
conclusions mention the marshalled text only symbolically. -/
def marshalObjC : List (String × DVal) → String := fun _ => "OBJ"

/-- A stand-in for `json.Marshal` on the slice store. -/
def marshalArrC : List DVal → String := fun _ => "ARR"

/-- Left-biased choice on optional values (the merge combinator of the
last-write-wins lookup). -/
def optOr (a b : Option DVal) : Option DVal :=
  match a with
  | some v => some v
  | none => b

/-- The key-wise last-write-wins union of a sequence of decoded JSON
objects: the value of the last binding of `k` in their concatenation. -/
def lastWriteUnion (kvss : List (List (String × DVal))) (k : String) : Option DVal :=
  kvss.flatten.reverse.lookup k

/-- The attempt executor of the retry scenario: status 500 on attempts 0
and 1, status 200 with body "ok" on every later attempt, never an
error. -/
def exec500 : Int → Outcome := fun i =>
  if i < 2 then { resp := some { status := 500, headers := [] }, body := "", errs := [] }
  else { resp := some { status := 200, headers := [] }, body := "ok", errs := [] }

/-- A builder state with one accumulated error (for the short-circuit
scenario). -/
def sErr : AgentState := {newAgent with errors := ["boom"]}

/-- The builder of the C2 witness: a fresh POST accumulating one
object-shaped `Data` entry, resolving to JSON. -/
def s2w : AgentState := {newAgent with method := "POST", data := [("a", DVal.str "1")]}

/-- The builder of the C3 witness: both stores non-empty under a forced
form target, raw buffer `"x=1"`. -/
def s3w : AgentState :=
  {newAgent with
    method := "POST"
    forceType := TypeForm
    data := [("k", DVal.str "v")]
    sliceData := [DVal.str "x"]
    rawString := "x=1"}

/-- The builder of the C3 counterexample: both stores non-empty under a
forced multipart target. -/
def s3c : AgentState :=
  {newAgent with
    method := "POST"
    forceType := TypeMultipart
    data := [("k", DVal.str "v")]
    sliceData := [DVal.str "x"]
    rawString := "RAW"}

/-- The builder of the form round-trip: `Data = {"a":"1","b":"2"}`, no
fallback, empty sequence store, forced form target. -/
def s6 : AgentState :=
  {newAgent with
    method := "POST"
    forceType := TypeForm
    data := [("a", DVal.str "1"), ("b", DVal.str "2")]}

/-- A concrete heap for the clone scenario: one cell per store of the
builder below. -/
def h0 : Heap :=
  [Cell.mapArr [("X-H", ["v"])], Cell.dataC [("k", DVal.str "v")], Cell.sliceC [],
   Cell.mapArr [], Cell.mapArr [], Cell.filesC [], Cell.cookiesC [], Cell.errsC [],
   Cell.intsC [500]]

/-- A concrete builder owning the nine cells of `h0`, with opaque
client/transport references 41 and 42. -/
def a0 : HeapAgent :=
  { headerA := 0, dataA := 1, sliceA := 2, formA := 3, queryA := 4, fileA := 5,
    cookieA := 6, errA := 7, retryStatusA := 8, url := "u", method := "POST",
    targetType := "json", forceType := "", bounceToRawString := false,
    rawString := "", retryerTime := 0, retryerCount := 0, attempt := 0,
    retryEnable := false, clientRef := 41, transportRef := 42,
    doNotClear := false, isClone := false }

/-! ## Claim theorems -/

/-- C5: on a builder whose map store is empty and whose raw-fallback
flag is false, ingesting the literal string `"{}"` (which JSON-decodes
to the empty object) via `SendString` sets `BounceToRawString`, leaves
the map store empty, and still appends the string to the raw buffer. -/
theorem sendString_empty_object_sets_fallback
    (jd : String → JsonDecodeResult) (pq : String → Option MapArray)
    (s : AgentState) (hd : s.data = []) (hb : s.bounceToRawString = false)
    (hjd : jd "\x7b\x7d" = .obj []) :
    sendString jd pq "\x7b\x7d" s =
      {s with bounceToRawString := true, rawString := s.rawString ++ "\x7b\x7d"} := by
  simp [sendString, hjd, hb, hd]

/-- Witness for C5: the scenario on a fresh builder with a decoder that
sends `"{}"` to the empty object. -/
theorem sendString_empty_object_sets_fallback_witness :
    newAgent.data = [] ∧ newAgent.bounceToRawString = false ∧
    sendString (jdTable [("\x7b\x7d", .obj [])]) parseQueryModel "\x7b\x7d" newAgent =
      {newAgent with bounceToRawString := true, rawString := newAgent.rawString ++ "\x7b\x7d"} :=
  ⟨rfl, rfl, sendString_empty_object_sets_fallback _ _ newAgent rfl rfl rfl⟩

/-- C10: once `BounceToRawString` is true, every later `SendString` call
only appends its argument to the raw buffer — the map store, sequence
store and the flag itself are untouched (so the flag is monotone across
accumulation, and any whole chain of calls is one raw-buffer append);
only resetting for a new request (`ClearSuperAgent` without the
do-not-clear mode) clears the flag. -/
theorem sendString_fallback_monotone
    (jd : String → JsonDecodeResult) (pq : String → Option MapArray)
    (s : AgentState) (hb : s.bounceToRawString = true) :
    (∀ c, sendString jd pq c s = {s with rawString := s.rawString ++ c}) ∧
    (∀ cs : List String, cs.foldl (fun st c => sendString jd pq c st) s =
      {s with rawString := cs.foldl (fun acc c => acc ++ c) s.rawString}) ∧
    (∀ s2 : AgentState, (clearSuperAgent false s2).bounceToRawString = false) := by
  have h1 : ∀ c (s2 : AgentState), s2.bounceToRawString = true →
      sendString jd pq c s2 = {s2 with rawString := s2.rawString ++ c} := by
    intro c s2 hb2
    simp [sendString, hb2]
  refine ⟨fun c => h1 c s hb, ?_, fun s2 => by simp [clearSuperAgent]⟩
  intro cs
  induction cs generalizing s with
  | nil => simp
  | cons c rest ih =>
    rw [List.foldl_cons, h1 c s hb,
      ih {s with rawString := s.rawString ++ c} hb, List.foldl_cons]

/-- Witness for C10: a concrete bounced builder, one call and a chain. -/
theorem sendString_fallback_monotone_witness :
    ({newAgent with bounceToRawString := true} : AgentState).bounceToRawString = true ∧
    sendString (jdTable []) parseQueryModel "x" {newAgent with bounceToRawString := true} =
      {{newAgent with bounceToRawString := true} with
        rawString := ({newAgent with bounceToRawString := true} : AgentState).rawString ++ "x"} :=
  ⟨rfl, (sendString_fallback_monotone (jdTable []) parseQueryModel
    {newAgent with bounceToRawString := true} rfl).1 "x"⟩

/-- C7: a non-empty accumulated error list makes `getResponseBytes`
return `(nil, nil, errors)` before any request is built — uniformly in
the execution capability, so no network call can be observed. -/
theorem getResponseBytes_short_circuits
    (s : AgentState) (he : s.errors ≠ []) :
    ∀ (doReq : MadeRequest → Except GoErr (Resp × String))
      (marshalObj : List (String × DVal) → String)
      (marshalArr : List DVal → String),
      getResponseBytes doReq marshalObj marshalArr s = (none, none, s.errors) := by
  intro doReq mo ma
  have hlen : s.errors.length ≠ 0 := by
    simpa using he
  simp [getResponseBytes, hlen]

/-- Witness for C7: a builder carrying one error short-circuits even
under an always-failing network capability. -/
theorem getResponseBytes_short_circuits_witness :
    sErr.errors ≠ [] ∧
    getResponseBytes (fun _ => .error "net") marshalObjC marshalArrC sErr =
      (none, none, sErr.errors) :=
  ⟨by simp [sErr], getResponseBytes_short_circuits sErr (by simp [sErr]) _ _ _⟩

/-- C8: a `SendFile` call whose resolved field name is the sentinel
`"file"` and that does not request `skipFileNumbering` (and passes the
mime check) appends exactly one attachment whose field name is
`"file" + (1 + number of previously registered attachments)`; in
particular three such calls on a builder with no attachments yield field
names file1, file2, file3 in registration order. -/
theorem sendFile_numbering (bytes : String) (args : List GoArg) (s : AgentState)
    (hf : argFieldnameOf args = "file") (hs : argSkipOf args = false)
    (ht : argTypeErr args = false) :
    (sendFile bytes args s).fileData = s.fileData ++
      [File.mk (if argFilenameOf args = "" then "filename" else argFilenameOf args)
        ("file" ++ toString (s.fileData.length + 1)) (argTypeOf args) bytes] ∧
    (s.fileData = [] →
      ((sendFile bytes args (sendFile bytes args (sendFile bytes args s))).fileData.map
        File.Fieldname) = ["file1", "file2", "file3"]) := by
  have key : ∀ s2 : AgentState, (sendFile bytes args s2).fileData = s2.fileData ++
      [File.mk (if argFilenameOf args = "" then "filename" else argFilenameOf args)
        ("file" ++ toString (s2.fileData.length + 1)) (argTypeOf args) bytes] := by
    intro s2
    simp [sendFile, hf, hs, ht]
  refine ⟨key s, fun h0 => ?_⟩
  rw [key, key, key, h0]
  simp
  exact ⟨rfl, rfl, rfl⟩

/-- Witness for C8: three no-argument registrations on a fresh builder. -/
theorem sendFile_numbering_witness :
    argFieldnameOf [] = "file" ∧ argSkipOf [] = false ∧
    ((sendFile "B" [] (sendFile "B" [] (sendFile "B" [] newAgent))).fileData.map
      File.Fieldname) = ["file1", "file2", "file3"] :=
  ⟨rfl, rfl, (sendFile_numbering "B" [] newAgent rfl rfl rfl).2 rfl⟩

/-- Resolution and the mixed-store fallback only write `targetType` and
`bounceToRawString`; every other builder field passes through. -/
theorem makeRequestResolved_fields (s : AgentState) :
    (makeRequestResolved s).method = s.method ∧
    (makeRequestResolved s).rawString = s.rawString ∧
    (makeRequestResolved s).data = s.data ∧
    (makeRequestResolved s).sliceData = s.sliceData ∧
    (makeRequestResolved s).header = s.header ∧
    (makeRequestResolved s).url = s.url := by
  unfold makeRequestResolved forceBounceOnMix resolveTargetType
  split <;> split <;> simp

/-- `MakeRequest` with a non-empty method and a successful body switch:
the returned request carries that body, and the headers are the
accumulated ones with the content type set only when one was produced
and none was present. -/
theorem makeRequest_ok (marshalObj : List (String × DVal) → String)
    (marshalArr : List DVal → String) (s : AgentState)
    (bo : Option (BodyContent × String))
    (hm : (makeRequestResolved s).method ≠ "")
    (hb : bodyFor marshalObj marshalArr (makeRequestResolved s) = .ok bo) :
    makeRequest marshalObj marshalArr s = .ok
      { method := (makeRequestResolved s).method
        url := (makeRequestResolved s).url
        host := hostOf (makeRequestResolved s).header
        headers := contentTypeMerge (makeRequestResolved s).header bo
        body := bo } := by
  unfold makeRequest
  rw [if_neg hm, hb]

/-- C2: when the resolved target encoding is JSON, `MakeRequest` picks
the body with the priority raw buffer (if bouncing) → JSON object of
`Data` → JSON array of `SliceData` → no body, always with content type
`application/json`, and sets no content type when no body is produced
(the headers stay exactly the accumulated ones). -/
theorem makeRequest_json_body_priority (marshalObj : List (String × DVal) → String)
    (marshalArr : List DVal → String) (s : AgentState) (hm : s.method ≠ "")
    (ht : (makeRequestResolved s).targetType = TypeJSON) :
    ((makeRequestResolved s).bounceToRawString = true →
      (makeRequest marshalObj marshalArr s).map MadeRequest.body =
        .ok (some (.bytes s.rawString, "application/json"))) ∧
    ((makeRequestResolved s).bounceToRawString = false → s.data ≠ [] →
      (makeRequest marshalObj marshalArr s).map MadeRequest.body =
        .ok (some (.bytes (marshalObj s.data), "application/json"))) ∧
    ((makeRequestResolved s).bounceToRawString = false → s.data = [] → s.sliceData ≠ [] →
      (makeRequest marshalObj marshalArr s).map MadeRequest.body =
        .ok (some (.bytes (marshalArr s.sliceData), "application/json"))) ∧
    ((makeRequestResolved s).bounceToRawString = false → s.data = [] → s.sliceData = [] →
      (makeRequest marshalObj marshalArr s).map
        (fun req => (req.body, req.headers)) = .ok (none, s.header)) := by
  obtain ⟨hm2, hraw, hdata, hslice, hheader, -⟩ := makeRequestResolved_fields s
  have hm3 : (makeRequestResolved s).method ≠ "" := by rw [hm2]; exact hm
  refine ⟨fun hbc => ?_, fun hbc hd => ?_, fun hbc hd hsl => ?_, fun hbc hd hsl => ?_⟩
  · have hbody : bodyFor marshalObj marshalArr (makeRequestResolved s) =
        .ok (some (.bytes s.rawString, "application/json")) := by
      simp [bodyFor, ht, hbc, hraw]
    rw [makeRequest_ok marshalObj marshalArr s _ hm3 hbody]
    rfl
  · have hlen : s.data.length ≠ 0 := by simpa using hd
    have hbody : bodyFor marshalObj marshalArr (makeRequestResolved s) =
        .ok (some (.bytes (marshalObj s.data), "application/json")) := by
      simp [bodyFor, ht, hbc, hdata, hlen]
    rw [makeRequest_ok marshalObj marshalArr s _ hm3 hbody]
    rfl
  · have hslen : s.sliceData.length ≠ 0 := by simpa using hsl
    have hbody : bodyFor marshalObj marshalArr (makeRequestResolved s) =
        .ok (some (.bytes (marshalArr s.sliceData), "application/json")) := by
      simp [bodyFor, ht, hbc, hdata, hslice, hd, hslen]
    rw [makeRequest_ok marshalObj marshalArr s _ hm3 hbody]
    rfl
  · have hbody : bodyFor marshalObj marshalArr (makeRequestResolved s) = .ok none := by
      simp [bodyFor, ht, hbc, hdata, hslice, hd, hsl]
    rw [makeRequest_ok marshalObj marshalArr s none hm3 hbody]
    simp [Except.map, contentTypeMerge, hheader]

/-- Witness for C2: on `s2w` the priority rule selects the JSON object
serialization of `Data`. -/
theorem makeRequest_json_body_priority_witness :
    (makeRequestResolved s2w).targetType = TypeJSON ∧
    (makeRequest marshalObjC marshalArrC s2w).map MadeRequest.body =
      .ok (some (.bytes (marshalObjC s2w.data), "application/json")) :=
  ⟨rfl, (makeRequest_json_body_priority marshalObjC marshalArrC s2w
    (by simp [s2w, newAgent]) rfl).2.1 rfl (by simp [s2w, newAgent])⟩

/-- C3 (amended): with both `Data` and `SliceData` non-empty,
`MakeRequest` forces `BounceToRawString` before encoding; consequently
under the JSON encoding the body is the raw buffer, and under the Form
encodings it is the raw buffer when non-empty (no body otherwise).
Under the Multipart encoding the structured stores still contribute
parts (see the counterexample), so the raw-buffer consequence is scoped
to JSON and Form. -/
theorem makeRequest_mix_forces_fallback (marshalObj : List (String × DVal) → String)
    (marshalArr : List DVal → String) (s : AgentState)
    (hd : s.data ≠ []) (hsl : s.sliceData ≠ []) :
    (makeRequestResolved s).bounceToRawString = true ∧
    (s.method ≠ "" → (makeRequestResolved s).targetType = TypeJSON →
      (makeRequest marshalObj marshalArr s).map MadeRequest.body =
        .ok (some (.bytes s.rawString, "application/json"))) ∧
    (s.method ≠ "" →
      ((makeRequestResolved s).targetType = TypeForm ∨
       (makeRequestResolved s).targetType = TypeFormData ∨
       (makeRequestResolved s).targetType = TypeUrlencoded) →
      (makeRequest marshalObj marshalArr s).map MadeRequest.body =
        .ok (if s.rawString.length ≠ 0 then
          some (.bytes s.rawString, "application/x-www-form-urlencoded") else none)) := by
  obtain ⟨hm2, hraw, hdata, hslice, hheader, -⟩ := makeRequestResolved_fields s
  have hdl : s.data.length ≠ 0 := by simpa using hd
  have hsll : s.sliceData.length ≠ 0 := by simpa using hsl
  have hbc : (makeRequestResolved s).bounceToRawString = true := by
    have hdl2 : (resolveTargetType s).data.length ≠ 0 := by
      unfold resolveTargetType
      split <;> simpa using hdl
    have hsll2 : (resolveTargetType s).sliceData.length ≠ 0 := by
      unfold resolveTargetType
      split <;> simpa using hsll
    unfold makeRequestResolved forceBounceOnMix
    rw [if_pos ⟨hdl2, hsll2⟩]
  refine ⟨hbc, fun hm ht => ?_, fun hm ht => ?_⟩
  · have hm3 : (makeRequestResolved s).method ≠ "" := by rw [hm2]; exact hm
    have hbody : bodyFor marshalObj marshalArr (makeRequestResolved s) =
        .ok (some (.bytes s.rawString, "application/json")) := by
      simp [bodyFor, ht, hbc, hraw]
    rw [makeRequest_ok marshalObj marshalArr s _ hm3 hbody]
    rfl
  · have hm3 : (makeRequestResolved s).method ≠ "" := by rw [hm2]; exact hm
    have hjson : (makeRequestResolved s).targetType ≠ TypeJSON := by
      rcases ht with h | h | h <;> rw [h] <;> decide
    have hbody : bodyFor marshalObj marshalArr (makeRequestResolved s) =
        .ok (if s.rawString.length ≠ 0 then
          some (.bytes s.rawString, "application/x-www-form-urlencoded") else none) := by
      rcases ht with h | h | h <;>
        simp [bodyFor, h, TypeForm, TypeFormData, TypeUrlencoded, TypeJSON, hbc, hraw]
    rw [makeRequest_ok marshalObj marshalArr s _ hm3 hbody]
    rfl

/-- Witness for C3 (amended): on `s3w` the fallback is forced and the
form body is the raw buffer. -/
theorem makeRequest_mix_forces_fallback_witness :
    s3w.data ≠ [] ∧ s3w.sliceData ≠ [] ∧
    (makeRequestResolved s3w).bounceToRawString = true ∧
    (makeRequest marshalObjC marshalArrC s3w).map MadeRequest.body =
      .ok (if s3w.rawString.length ≠ 0 then
        some (.bytes s3w.rawString, "application/x-www-form-urlencoded") else none) := by
  have h := makeRequest_mix_forces_fallback marshalObjC marshalArrC s3w
    (by simp [s3w]) (by simp [s3w])
  exact ⟨by simp [s3w], by simp [s3w], h.1, h.2.2 (by simp [s3w]) (Or.inl rfl)⟩

/-- Counterexample for C3 as stated: with both stores non-empty and the
multipart target, the encoded body is not the raw buffer alone — the
part written from the map store (`k`/`v`) and the JSON part written from
the sequence store are in the body next to the raw-buffer part. -/
theorem makeRequest_mix_multipart_counterexample :
    s3c.data ≠ [] ∧ s3c.sliceData ≠ [] ∧
    (makeRequest marshalObjC marshalArrC s3c).map MadeRequest.body =
      .ok (some (.multipart
        [Part.mk "data" none none "RAW",
         Part.mk "k" none none "v",
         Part.mk "data" none (some "application/json") "ARR"], multipartContentType)) ∧
    Part.mk "k" none none "v" ∈
      [Part.mk "data" none none "RAW",
       Part.mk "k" none none "v",
       Part.mk "data" none (some "application/json") "ARR"] := by
  refine ⟨by simp [s3c], by simp [s3c], by rfl, by simp⟩

/-- C6: encoding the map store `{"a":"1","b":"2"}` under the Form target
(with the fallback unset and the sequence store empty) yields the
URL-encoded body `a=1&b=2`, and parsing that body back as a query string
reconstructs exactly the pairs a=1 and b=2. -/
theorem form_encode_roundtrip :
    s6.bounceToRawString = false ∧ s6.sliceData = [] ∧
    (makeRequest marshalObjC marshalArrC s6).map MadeRequest.body =
      .ok (some (.bytes (uvEncode (changeMapToURLValues s6.data)),
        "application/x-www-form-urlencoded")) ∧
    uvEncode (changeMapToURLValues s6.data) = "a=1&b=2" ∧
    parseQueryModel "a=1&b=2" = some [("a", ["1"]), ("b", ["2"])] :=
  ⟨rfl, rfl, by rfl, by decide, by decide⟩

/-- `optOr` drops a `none` right argument. -/
theorem optOr_none (a : Option DVal) : optOr a none = a := by
  cases a <;> rfl

/-- `optOr` is associative. -/
theorem optOr_assoc (a b c : Option DVal) :
    optOr (optOr a b) c = optOr a (optOr b c) := by
  cases a <;> rfl

/-- Go map assignment changes exactly the assigned key's lookup. -/
theorem lookup_dataSet (d : List (String × DVal)) (k k2 : String) (v : DVal) :
    (dataSet d k v).lookup k2 = if k2 = k then some v else d.lookup k2 := by
  induction d with
  | nil =>
    by_cases h : k2 = k
    · simp [dataSet, List.lookup, h]
    · have hb : (k2 == k) = false := by simpa using h
      simp [dataSet, List.lookup, h, hb]
  | cons e rest ih =>
    obtain ⟨k0, v0⟩ := e
    by_cases h : k0 = k
    · subst h
      by_cases h2 : k2 = k0
      · simp [dataSet, List.lookup, h2]
      · have hb : (k2 == k0) = false := by simpa using h2
        simp [dataSet, List.lookup, h2, hb]
    · by_cases h2 : k2 = k0
      · subst h2
        simp [dataSet, List.lookup, h]
      · have hb : (k2 == k0) = false := by simpa using h2
        simp [dataSet, List.lookup, h, h2, hb, ih]

/-- Association-list lookup distributes over append as a left-biased
choice. -/
theorem lookup_append_dval (l1 l2 : List (String × DVal)) (k : String) :
    (l1 ++ l2).lookup k = optOr (l1.lookup k) (l2.lookup k) := by
  induction l1 with
  | nil => simp [optOr]
  | cons e rest ih =>
    by_cases h : k = e.1
    · simp [List.lookup, h, optOr]
    · have hb : (k == e.1) = false := by simpa using h
      simp [List.lookup, hb, ih]

/-- Folding Go map assignments over a decoded object: the lookup is the
last binding in the object, else the previous map's. -/
theorem lookup_foldl_dataSet (kvs : List (String × DVal))
    (d : List (String × DVal)) (k : String) :
    ((kvs.foldl (fun d2 e => dataSet d2 e.1 e.2) d).lookup k) =
      optOr (kvs.reverse.lookup k) (d.lookup k) := by
  induction kvs generalizing d with
  | nil => simp [optOr]
  | cons e rest ih =>
    rw [List.foldl_cons, ih, List.reverse_cons, lookup_append_dval, optOr_assoc,
      lookup_dataSet]
    by_cases h : k = e.1
    · simp [List.lookup, h, optOr]
    · have hb : (k == e.1) = false := by simpa using h
      simp [List.lookup, h, hb, optOr]

/-- `dataSet` has at least one entry. -/
theorem dataSet_length_pos (d : List (String × DVal)) (k : String) (v : DVal) :
    0 < (dataSet d k v).length := by
  induction d with
  | nil => simp [dataSet]
  | cons e rest ih =>
    obtain ⟨k0, v0⟩ := e
    by_cases h : k0 = k <;> simp [dataSet, h]

/-- `dataSet` never shrinks the map. -/
theorem dataSet_length_ge (d : List (String × DVal)) (k : String) (v : DVal) :
    d.length ≤ (dataSet d k v).length := by
  induction d with
  | nil => simp [dataSet]
  | cons e rest ih =>
    obtain ⟨k0, v0⟩ := e
    by_cases h : k0 = k <;> simp [dataSet, h]
    exact ih

/-- Folding assignments never shrinks the map. -/
theorem foldl_dataSet_length_ge (kvs : List (String × DVal))
    (d : List (String × DVal)) :
    d.length ≤ (kvs.foldl (fun d2 e => dataSet d2 e.1 e.2) d).length := by
  induction kvs generalizing d with
  | nil => simp
  | cons e rest ih =>
    rw [List.foldl_cons]
    exact le_trans (dataSet_length_ge d e.1 e.2) (ih _)

/-- Merging a non-empty decoded object leaves the map store non-empty. -/
theorem foldl_dataSet_ne_nil (kvs : List (String × DVal))
    (d : List (String × DVal)) (h : kvs ≠ []) :
    (kvs.foldl (fun d2 e => dataSet d2 e.1 e.2) d).length ≠ 0 := by
  cases kvs with
  | nil => exact absurd rfl h
  | cons e rest =>
    rw [List.foldl_cons]
    have h1 := dataSet_length_pos d e.1 e.2
    have h2 := foldl_dataSet_length_ge rest (dataSet d e.1 e.2)
    omega

/-- A `SendString` whose input decodes to an object merging into a
non-empty result performs exactly the key-wise merge plus the raw-buffer
append, leaving the fallback flag unset. -/
theorem sendString_obj_step (jd : String → JsonDecodeResult)
    (pq : String → Option MapArray) (c : String)
    (kvs : List (String × DVal)) (s : AgentState)
    (hb : s.bounceToRawString = false) (hjd : jd c = .obj kvs)
    (hne : (kvs.foldl (fun d e => dataSet d e.1 e.2) s.data).length ≠ 0) :
    sendString jd pq c s =
      {s with
        data := kvs.foldl (fun d e => dataSet d e.1 e.2) s.data
        rawString := s.rawString ++ c} := by
  simp [sendString, hb, hjd, hne]

/-- Accumulated form of the union property: over a chain of object
ingestions (each non-empty), the final lookup is the last write in the
concatenated objects, else the starting map's binding. -/
theorem sendString_union_aux (jd : String → JsonDecodeResult)
    (pq : String → Option MapArray)
    (cs : List (String × List (String × DVal))) :
    ∀ s : AgentState, s.bounceToRawString = false →
    (∀ p ∈ cs, jd p.1 = .obj p.2 ∧ p.2 ≠ []) →
    ∀ k, ((cs.foldl (fun st p => sendString jd pq p.1 st) s).data).lookup k =
      optOr ((cs.map Prod.snd).flatten.reverse.lookup k) (s.data.lookup k) := by
  induction cs with
  | nil =>
    intro s _ _ k
    simp [optOr]
  | cons p rest ih =>
    intro s hb hdec k
    obtain ⟨hjd, hne⟩ := hdec p (List.mem_cons_self p rest)
    rw [List.foldl_cons,
      sendString_obj_step jd pq p.1 p.2 s hb hjd (foldl_dataSet_ne_nil _ _ hne),
      ih {s with data := p.2.foldl (fun d e => dataSet d e.1 e.2) s.data, rawString := s.rawString ++ p.1} hb
        (fun q hq => hdec q (List.mem_cons_of_mem p hq)) k]
    show optOr _ ((p.2.foldl (fun d e => dataSet d e.1 e.2) s.data).lookup k) = _
    rw [lookup_foldl_dataSet, List.map_cons, List.flatten_cons, List.reverse_append,
      lookup_append_dval, optOr_assoc]

/-- C4 (amended): a chain of `SendString` calls on a fresh map store
whose arguments each JSON-decode to a non-empty object produces a map
store equal (key-wise) to the last-write-wins union of the decoded
objects, independent of which call contributed a key beyond that rule.
(The claim's original form, allowing the empty object, fails: see the
counterexample — an empty object trips the raw-string fallback and
freezes the map store.) -/
theorem sendString_object_union (jd : String → JsonDecodeResult)
    (pq : String → Option MapArray)
    (cs : List (String × List (String × DVal))) (s : AgentState)
    (hd : s.data = []) (hb : s.bounceToRawString = false)
    (hdec : ∀ p ∈ cs, jd p.1 = .obj p.2 ∧ p.2 ≠ []) :
    ∀ k, ((cs.foldl (fun st p => sendString jd pq p.1 st) s).data).lookup k =
      lastWriteUnion (cs.map Prod.snd) k := by
  intro k
  rw [sendString_union_aux jd pq cs s hb hdec k, hd]
  simp [lastWriteUnion, List.lookup, optOr_none]

/-- Witness for C4 (amended): two object ingestions on a fresh builder;
the duplicate-free union is recovered key-wise. -/
theorem sendString_object_union_witness :
    (([("\x7b\"a\":\"1\"\x7d", [("a", DVal.str "1")]),
       ("\x7b\"b\":\"2\"\x7d", [("b", DVal.str "2")])].foldl
        (fun st p => sendString
          (jdTable [("\x7b\"a\":\"1\"\x7d", .obj [("a", DVal.str "1")]),
                    ("\x7b\"b\":\"2\"\x7d", .obj [("b", DVal.str "2")])])
          parseQueryModel p.1 st) newAgent).data).lookup "a" =
      lastWriteUnion [[("a", DVal.str "1")], [("b", DVal.str "2")]] "a" := by
  have h := sendString_object_union
    (jdTable [("\x7b\"a\":\"1\"\x7d", .obj [("a", DVal.str "1")]),
              ("\x7b\"b\":\"2\"\x7d", .obj [("b", DVal.str "2")])])
    parseQueryModel
    [("\x7b\"a\":\"1\"\x7d", [("a", DVal.str "1")]),
     ("\x7b\"b\":\"2\"\x7d", [("b", DVal.str "2")])] newAgent rfl rfl
    (by
      intro p hp
      simp only [List.mem_cons, List.mem_singleton] at hp
      rcases hp with h1 | h1 | h1
      · subst h1
        exact ⟨rfl, by simp⟩
      · subst h1
        exact ⟨rfl, by simp⟩
      · cases h1)
  exact h "a"

/-- Counterexample for C4 as stated: the arguments `"{}"` then
`"{"a":"1"}"` both decode to objects, yet the final map store lacks the
key `a` that the last-write-wins union contains — the empty first object
set the raw-string fallback and the second call was ignored. -/
theorem sendString_object_union_counterexample :
    (([("\x7b\x7d", ([] : List (String × DVal))),
       ("\x7b\"a\":\"1\"\x7d", [("a", DVal.str "1")])].foldl
        (fun st p => sendString
          (jdTable [("\x7b\x7d", .obj []),
                    ("\x7b\"a\":\"1\"\x7d", .obj [("a", DVal.str "1")])])
          parseQueryModel p.1 st) newAgent).data).lookup "a" = none ∧
    lastWriteUnion [[], [("a", DVal.str "1")]] "a" = some (DVal.str "1") :=
  ⟨by rfl, by rfl⟩

/-- Characterization of the `EndBytes` retry loop, by induction on the
number of remaining retryable attempts: starting at any attempt counter,
if the next `k` attempts are retryable (errors, or a status in the
retryable set), the budget allows them, and the loop then stops (either
the counter reaches the configured count or the `k`-th outcome is not
retryable), the loop performs exactly those attempts, sleeps `k` times,
ends with the counter advanced by `k`, and returns the `k`-th outcome. -/
theorem endBytesLoop_spec (exec : Int → Outcome) :
    ∀ (k : Nat) (r : Retryable), r.Enable = true →
    r.Attempt + k ≤ r.RetryerCount →
    (∀ i : Nat, i < k → outcomeRetryable r (exec (r.Attempt + i)) = true) →
    (r.Attempt + k = r.RetryerCount ∨ outcomeRetryable r (exec (r.Attempt + k)) = false) →
    endBytesLoop exec r = ({r with Attempt := r.Attempt + k}, k, exec (r.Attempt + k)) := by
  intro k
  induction k with
  | zero =>
    intro r hEn hle hfail hstop
    have hcond : retryCondition r (exec r.Attempt).resp (!(exec r.Attempt).errs.isEmpty) = false := by
      rcases hstop with h | h
      · have hnlt : ¬(r.Attempt < r.RetryerCount) := by
          push_cast at h
          omega
        simp [retryCondition, hnlt]
      · have h0 : (!(exec r.Attempt).errs.isEmpty ||
            statusesContains r.RetryableStatus (respStatusCode (exec r.Attempt).resp)) = false := by
          have h1 := h
          simp only [Nat.cast_zero, add_zero] at h1
          simpa [outcomeRetryable] using h1
        simp [retryCondition, h0]
    unfold endBytesLoop
    rw [dif_neg (by simp [hcond])]
    simp
  | succ k ihk =>
    intro r hEn hle hfail hstop
    have hlt : r.Attempt < r.RetryerCount := by
      push_cast at hle
      omega
    have hcond : retryCondition r (exec r.Attempt).resp (!(exec r.Attempt).errs.isEmpty) = true := by
      have hf0 := hfail 0 (Nat.succ_pos k)
      simp only [Nat.cast_zero, add_zero] at hf0
      simp only [outcomeRetryable] at hf0
      simp [retryCondition, hEn, hlt, hf0]
    unfold endBytesLoop
    rw [dif_pos (by simp [hcond])]
    rw [ihk {r with Attempt := r.Attempt + 1} hEn
      (by
        show r.Attempt + 1 + (k : Int) ≤ r.RetryerCount
        push_cast at hle
        omega)
      (by
        intro i hi
        show outcomeRetryable r (exec (r.Attempt + 1 + (i : Int))) = true
        have h5 : r.Attempt + 1 + (i : Int) = r.Attempt + ((i + 1 : Nat) : Int) := by
          push_cast
          ring
        rw [h5]
        exact hfail (i + 1) (by omega))
      (by
        rcases hstop with h | h
        · left
          show r.Attempt + 1 + (k : Int) = r.RetryerCount
          push_cast at h
          omega
        · right
          show outcomeRetryable r (exec (r.Attempt + 1 + (k : Int))) = false
          have h5 : r.Attempt + 1 + (k : Int) = r.Attempt + ((k + 1 : Nat) : Int) := by
            push_cast
            ring
          rw [h5]
          exact h)]
    have h6 : r.Attempt + 1 + (k : Int) = r.Attempt + ((k + 1 : Nat) : Int) := by
      push_cast
      ring
    simp [h6]


/-- C1: under a policy set via `Retry` (enabled, counter 0), `EndBytes`
repeats the attempt exactly while the counter is below the configured
count and the attempt erred or hit a retryable status: with the first
`k` outcomes retryable and a stop at `k` (count reached or a
non-retryable outcome), exactly `k+1` attempts run with `k` sleeps, the
discarded intermediate errors never surface, the counter ends at `k`,
and the final outcome is the last attempt's response and errors
unchanged apart from the `Retry-Count: k` stamp on the response. -/
theorem endBytes_retry_spec (exec : Int → Outcome) (r : Retryable) (k : Nat)
    (hEn : r.Enable = true) (hA : r.Attempt = 0)
    (hk : (k : Int) ≤ r.RetryerCount)
    (hfail : ∀ i : Nat, i < k → outcomeRetryable r (exec i) = true)
    (hstop : (k : Int) = r.RetryerCount ∨ outcomeRetryable r (exec k) = false) :
    endBytes exec r = ({r with Attempt := (k : Int)}, k, stampRetryCount (exec k) k) := by
  have h := endBytesLoop_spec exec k r hEn
    (by rw [hA]; simpa using hk)
    (by intro i hi; simpa [hA] using hfail i hi)
    (by rcases hstop with h | h
        · left
          rw [hA]
          simpa using h
        · right
          simpa [hA] using h)
  unfold endBytes
  rw [h]
  simp [hA]

/-- Witness for C1: `Retry(3, delay, 500)` with an executor answering
500, 500, 200 — three attempts, two sleeps, final status 200 carrying
`Retry-Count: 2`. -/
theorem endBytes_retry_spec_witness :
    (∀ i : Nat, i < 2 → outcomeRetryable (retryPolicy 3 5 [500]) (exec500 i) = true) ∧
    endBytes exec500 (retryPolicy 3 5 [500]) =
      ({retryPolicy 3 5 [500] with Attempt := 2}, 2, stampRetryCount (exec500 2) 2) ∧
    stampRetryCount (exec500 2) 2 =
      { resp := some { status := 200, headers := [("Retry-Count", ["2"])] },
        body := "ok", errs := [] } := by
  refine ⟨by decide, ?_, by rfl⟩
  have h := endBytes_retry_spec exec500 (retryPolicy 3 5 [500]) 2 rfl rfl
    (by decide) (by decide) (Or.inr (by decide))
  simpa using h

/-- Writing through one builder's addresses leaves every other heap
location untouched. -/
theorem getElem?_writeAgent_ne (a : HeapAgent) (h : Heap) (p : AgentState) (j : Nat)
    (h1 : a.headerA ≠ j) (h2 : a.dataA ≠ j) (h3 : a.sliceA ≠ j) (h4 : a.formA ≠ j)
    (h5 : a.queryA ≠ j) (h6 : a.fileA ≠ j) (h7 : a.cookieA ≠ j) (h8 : a.errA ≠ j)
    (h9 : a.retryStatusA ≠ j) :
    (writeAgent a h p)[j]? = h[j]? := by
  unfold writeAgent
  rw [List.getElem?_set_ne h9, List.getElem?_set_ne h8, List.getElem?_set_ne h7,
    List.getElem?_set_ne h6, List.getElem?_set_ne h5, List.getElem?_set_ne h4,
    List.getElem?_set_ne h3, List.getElem?_set_ne h2, List.getElem?_set_ne h1]

/-- Frame rule: a write-back through builder `a` is invisible to a
builder `b` whose store addresses are all disjoint from `a`'s. -/
theorem readAgent_writeAgent_ne (b a : HeapAgent) (h : Heap) (p : AgentState)
    (hsep : ∀ j : Nat,
      (j = b.headerA ∨ j = b.dataA ∨ j = b.sliceA ∨ j = b.formA ∨ j = b.queryA ∨
       j = b.fileA ∨ j = b.cookieA ∨ j = b.errA ∨ j = b.retryStatusA) →
      a.headerA ≠ j ∧ a.dataA ≠ j ∧ a.sliceA ≠ j ∧ a.formA ≠ j ∧ a.queryA ≠ j ∧
      a.fileA ≠ j ∧ a.cookieA ≠ j ∧ a.errA ≠ j ∧ a.retryStatusA ≠ j) :
    readAgent b (writeAgent a h p) = readAgent b h := by
  have hget : ∀ j : Nat,
      (j = b.headerA ∨ j = b.dataA ∨ j = b.sliceA ∨ j = b.formA ∨ j = b.queryA ∨
       j = b.fileA ∨ j = b.cookieA ∨ j = b.errA ∨ j = b.retryStatusA) →
      (writeAgent a h p)[j]? = h[j]? := by
    intro j hj
    obtain ⟨g1, g2, g3, g4, g5, g6, g7, g8, g9⟩ := hsep j hj
    exact getElem?_writeAgent_ne a h p j g1 g2 g3 g4 g5 g6 g7 g8 g9
  simp only [readAgent, readMapArr, readData, readSlice, readFiles, readCookies,
    readErrs, readInts]
  rw [hget b.headerA (by tauto), hget b.dataA (by tauto), hget b.sliceA (by tauto),
    hget b.formA (by tauto), hget b.queryA (by tauto), hget b.fileA (by tauto),
    hget b.cookieA (by tauto), hget b.errA (by tauto), hget b.retryStatusA (by tauto)]

/-- Reading the freshly allocated cells of a clone recovers exactly the
copied store contents. -/
theorem readAgent_fresh (a : HeapAgent) (h : Heap) (m0 : MapArray)
    (d1 : List (String × DVal)) (l2 : List DVal) (m3 m4 : MapArray)
    (f5 : List File) (k6 : List Cookie) (e7 : List GoErr) (i8 : List Int) :
    readAgent
      {a with headerA := h.length, dataA := h.length + 1, sliceA := h.length + 2, formA := h.length + 3, queryA := h.length + 4, fileA := h.length + 5, cookieA := h.length + 6, errA := h.length + 7, retryStatusA := h.length + 8, doNotClear := true, isClone := true}
      (h ++ [Cell.mapArr m0, Cell.dataC d1, Cell.sliceC l2, Cell.mapArr m3, Cell.mapArr m4, Cell.filesC f5, Cell.cookiesC k6, Cell.errsC e7, Cell.intsC i8]) =
    { url := a.url, method := a.method, header := m0, targetType := a.targetType, forceType := a.forceType, data := d1, sliceData := l2, formData := m3, queryData := m4, fileData := f5, bounceToRawString := a.bounceToRawString, rawString := a.rawString, cookies := k6, errors := e7, retryable := ⟨i8, a.retryerTime, a.retryerCount, a.attempt, a.retryEnable⟩ } := by
  have e : ∀ (i : Nat) (c : Cell),
      [Cell.mapArr m0, Cell.dataC d1, Cell.sliceC l2, Cell.mapArr m3, Cell.mapArr m4,
        Cell.filesC f5, Cell.cookiesC k6, Cell.errsC e7, Cell.intsC i8][i]? = some c →
      (h ++ [Cell.mapArr m0, Cell.dataC d1, Cell.sliceC l2, Cell.mapArr m3, Cell.mapArr m4,
        Cell.filesC f5, Cell.cookiesC k6, Cell.errsC e7, Cell.intsC i8])[h.length + i]? = some c := by
    intro i c hc
    rw [List.getElem?_append_right (by omega)]
    simpa using hc
  have e0 := e 0 _ rfl
  have e1 := e 1 _ rfl
  have e2 := e 2 _ rfl
  have e3 := e 3 _ rfl
  have e4 := e 4 _ rfl
  have e5 := e 5 _ rfl
  have e6 := e 6 _ rfl
  have e7h := e 7 _ rfl
  have e8 := e 8 _ rfl
  simp only [Nat.add_zero] at e0
  simp only [readAgent, readMapArr, readData, readSlice, readFiles, readCookies,
    readErrs, readInts]
  simp [e0, e1, e2, e3, e4, e5, e6, e7h, e8]

/-- Allocation at the end of the heap is invisible to a well-formed
builder. -/
theorem readAgent_append_of_wf (a : HeapAgent) (h : Heap) (cells : List Cell)
    (hwf : agentWF a h) :
    readAgent a (h ++ cells) = readAgent a h := by
  obtain ⟨w1, w2, w3, w4, w5, w6, w7, w8, w9⟩ := hwf
  have e : ∀ j : Nat, j < h.length → (h ++ cells)[j]? = h[j]? := by
    intro j hj
    rw [List.getElem?_append]
    simp [hj]
  simp only [readAgent, readMapArr, readData, readSlice, readFiles, readCookies,
    readErrs, readInts]
  rw [e _ w1, e _ w2, e _ w3, e _ w4, e _ w5, e _ w6, e _ w7, e _ w8, e _ w9]

/-- C9: `Clone` deep-copies every mutable store — header map, `Data`,
`SliceData`, `FormData`, `QueryData`, file list, cookie list, error
list, retry-status list (the raw-string buffer and the scalar retry
fields are Go value fields, copied with the struct) — so the clone
observes the same state, cloning does not disturb the original, both
builders share the `Client` and `Transport` references, and an API
mutation (any state transformer applied through either builder's own
references, which is the write footprint of every fluent method) is
never observable through the other builder. -/
theorem clone_frame (a : HeapAgent) (h : Heap) (hwf : agentWF a h) :
    readAgent (clone a h).1 (clone a h).2 = readAgent a h ∧
    readAgent a (clone a h).2 = readAgent a h ∧
    (clone a h).1.clientRef = a.clientRef ∧
    (clone a h).1.transportRef = a.transportRef ∧
    (∀ f : AgentState → AgentState,
      readAgent (clone a h).1 (applyOp f a (clone a h).2).2 =
        readAgent (clone a h).1 (clone a h).2) ∧
    (∀ f : AgentState → AgentState,
      readAgent a (applyOp f (clone a h).1 (clone a h).2).2 =
        readAgent a (clone a h).2) := by
  obtain ⟨w1, w2, w3, w4, w5, w6, w7, w8, w9⟩ := hwf
  have hb1 : (clone a h).1.headerA = h.length := rfl
  have hb2 : (clone a h).1.dataA = h.length + 1 := rfl
  have hb3 : (clone a h).1.sliceA = h.length + 2 := rfl
  have hb4 : (clone a h).1.formA = h.length + 3 := rfl
  have hb5 : (clone a h).1.queryA = h.length + 4 := rfl
  have hb6 : (clone a h).1.fileA = h.length + 5 := rfl
  have hb7 : (clone a h).1.cookieA = h.length + 6 := rfl
  have hb8 : (clone a h).1.errA = h.length + 7 := rfl
  have hb9 : (clone a h).1.retryStatusA = h.length + 8 := rfl
  refine ⟨?_, ?_, rfl, rfl, ?_, ?_⟩
  · exact readAgent_fresh a h (readMapArr h a.headerA) (readData h a.dataA)
      (readSlice h a.sliceA) (readMapArr h a.formA) (readMapArr h a.queryA)
      (readFiles h a.fileA) (readCookies h a.cookieA) (readErrs h a.errA)
      (readInts h a.retryStatusA)
  · exact readAgent_append_of_wf a h _ ⟨w1, w2, w3, w4, w5, w6, w7, w8, w9⟩
  · intro f
    refine readAgent_writeAgent_ne (clone a h).1 a (clone a h).2 _ ?_
    intro j hj
    have hjge : h.length ≤ j := by
      rw [hb1, hb2, hb3, hb4, hb5, hb6, hb7, hb8, hb9] at hj
      rcases hj with rfl | rfl | rfl | rfl | rfl | rfl | rfl | rfl | rfl <;> omega
    exact ⟨by omega, by omega, by omega, by omega, by omega, by omega, by omega,
      by omega, by omega⟩
  · intro f
    refine readAgent_writeAgent_ne a (clone a h).1 (clone a h).2 _ ?_
    intro j hj
    have hjlt : j < h.length := by
      rcases hj with rfl | rfl | rfl | rfl | rfl | rfl | rfl | rfl | rfl <;> omega
    rw [hb1, hb2, hb3, hb4, hb5, hb6, hb7, hb8, hb9]
    exact ⟨by omega, by omega, by omega, by omega, by omega, by omega, by omega,
      by omega, by omega⟩

/-- Witness for C9: a concrete builder/heap; a `SendString` through the
original is invisible to the clone, and a `SendFile` through the clone
is invisible to the original. -/
theorem clone_frame_witness :
    agentWF a0 h0 ∧
    readAgent (clone a0 h0).1 (clone a0 h0).2 = readAgent a0 h0 ∧
    (clone a0 h0).1.clientRef = a0.clientRef ∧
    readAgent (clone a0 h0).1
      (applyOp (sendString (jdTable []) parseQueryModel "x=1") a0 (clone a0 h0).2).2 =
      readAgent (clone a0 h0).1 (clone a0 h0).2 ∧
    readAgent a0
      (applyOp (sendFile "B" []) (clone a0 h0).1 (clone a0 h0).2).2 =
      readAgent a0 (clone a0 h0).2 := by
  have h := clone_frame a0 h0 (by decide)
  exact ⟨by decide, h.1, h.2.2.1, h.2.2.2.2.1 _, h.2.2.2.2.2 _⟩

end Gorequest
